import Mathlib

/-!
Verification of the storage key-encoding and subspace-routing layer of the
mail server (crates/store/src/write/key.rs), as a shallow embedding.

Bytes are modelled as `Nat` values (a Rust `u8` value is below 256 by its
type); byte strings are `List Nat`.  Fixed-width big-endian writes truncate
modulo the width, mirroring `to_be_bytes` on the machine-integer types.
`usize` subtraction in the decoder is modelled as 64-bit wrapping
subtraction (release-profile Rust semantics).

Declarations missing from the visible sources (the enum declarations of
`write/mod.rs`, the subspace constants of `lib.rs`, the LEB128 codec of the
`utils` crate) are modelled from the spec where noted.
-/

/-- Modelled from the spec: the subspace tags of `lib.rs` are a closed set of
single-byte values, chosen by the implementation and unique per tag; the
numeric values are not visible here, so distinct placeholder bytes are used. -/
def SUBSPACE_ACL : Nat := 1

def SUBSPACE_BITMAP_ID : Nat := 2

def SUBSPACE_BITMAP_TAG : Nat := 3

def SUBSPACE_BITMAP_TEXT : Nat := 4

def SUBSPACE_BLOB_LINK : Nat := 5

def SUBSPACE_BLOB_RESERVE : Nat := 6

def SUBSPACE_COUNTER : Nat := 7

def SUBSPACE_DIRECTORY : Nat := 8

def SUBSPACE_FTS_INDEX : Nat := 9

def SUBSPACE_IN_MEMORY_COUNTER : Nat := 10

def SUBSPACE_IN_MEMORY_VALUE : Nat := 11

def SUBSPACE_INDEXES : Nat := 12

def SUBSPACE_LOGS : Nat := 13

def SUBSPACE_PROPERTY : Nat := 14

def SUBSPACE_QUEUE_EVENT : Nat := 15

def SUBSPACE_QUEUE_MESSAGE : Nat := 16

def SUBSPACE_QUOTA : Nat := 17

def SUBSPACE_REPORT_IN : Nat := 18

def SUBSPACE_REPORT_OUT : Nat := 19

def SUBSPACE_SETTINGS : Nat := 20

def SUBSPACE_TASK_QUEUE : Nat := 21

def SUBSPACE_TELEMETRY_INDEX : Nat := 22

def SUBSPACE_TELEMETRY_METRIC : Nat := 23

def SUBSPACE_TELEMETRY_SPAN : Nat := 24

/-- Modelled from the spec: `WITH_SUBSPACE` is a single bit of a `u32` flag
word; its position is not visible here, so bit 0 is used. -/
def WITH_SUBSPACE : Nat := 1

def U16_LEN : Nat := 2

def U32_LEN : Nat := 4

def U64_LEN : Nat := 8

/-- Modelled from the spec: `utils::BLOB_HASH_LEN`, the byte length of a blob
hash; the constant is not visible here, 32 is used as a placeholder. -/
def BLOB_HASH_LEN : Nat := 32

/-- The flag test `(flags & WITH_SUBSPACE) != 0` of the serializers. -/
def hasSubspaceFlag (flags : Nat) : Bool := Nat.land flags WITH_SUBSPACE != 0

/-- `KeySerialize for u8`: push the byte. -/
def writeU8 (v : Nat) : List Nat := [v]

/-- Big-endian byte string of width `w` for value `n`, truncating to
`n % 256 ^ w` exactly as `to_be_bytes` does on a `w`-byte machine integer. -/
def beBytes : Nat → Nat → List Nat
  | 0, _ => []
  | w + 1, n => beBytes w (n / 256) ++ [n % 256]

/-- `KeySerialize for u16` (`to_be_bytes`). -/
def writeU16 (v : Nat) : List Nat := beBytes U16_LEN v

/-- `KeySerialize for u32` (`to_be_bytes`). -/
def writeU32 (v : Nat) : List Nat := beBytes U32_LEN v

/-- `KeySerialize for u64` (`to_be_bytes`). -/
def writeU64 (v : Nat) : List Nat := beBytes U64_LEN v

/-- Fuelled helper for unsigned LEB128; the fuel is consumed one unit per
emitted byte, so fuel `n` always suffices for value `n`. -/
def leb128Aux : Nat → Nat → List Nat
  | 0, n => [n % 128]
  | fuel + 1, n => if n < 128 then [n] else (n % 128 + 128) :: leb128Aux fuel (n / 128)

/-- Modelled from the spec: `KeySerializer::write_leb128` uses the `utils`
crate's unsigned LEB128 codec (not visible here): little-endian 7-bit groups,
continuation bit set on every byte but the last. -/
def writeLeb128 (n : Nat) : List Nat := leb128Aux n n

/-- `u64::from_be_bytes` and friends: fold the bytes big-endian first. -/
def beToNat (l : List Nat) : Nat := l.foldl (fun acc b => acc * 256 + b) 0

/-- Rust slice indexing `l.get(a..b)`: `Some` of the sub-slice when
`a <= b` and `b <= l.len()`, `None` otherwise. -/
def sliceGet (l : List Nat) (a b : Nat) : Option (List Nat) :=
  if a ≤ b ∧ b ≤ l.length then some ((l.drop a).take (b - a)) else none

/-- Wrapping 64-bit `usize` subtraction (release-profile Rust), for the
decoder's `key.len() - c` offset computations on short input. -/
def wsub (a b : Nat) : Nat := (a + (2 ^ 64 - b)) % 2 ^ 64

/-- The decoder's only error: `trc::StoreEvent::DataCorruption` (location and
context payloads carry no information the claims need). -/
inductive StoreError where
  | dataCorruption
deriving DecidableEq

deriving instance DecidableEq for Except

/-- `DeserializeBigEndian::deserialize_be_u64`: read `self.get(index..index+8)`
and fold big-endian; any out-of-range access is `DataCorruption`.  (When the
wrapped `index` is huge, Rust's own wrapped `index + 8` end bound also makes
`get` return `None`, so the unwrapped end bound here is result-equivalent.) -/
def deserializeBeU64 (key : List Nat) (index : Nat) : Except StoreError Nat :=
  match sliceGet key index (index + U64_LEN) with
  | some bytes => Except.ok (beToNat bytes)
  | none => Except.error StoreError.dataCorruption

/-- Modelled from the spec: `ReportEvent` of `write/mod.rs` with fields `due`,
`policy_hash`, `seq_id` (all `u64`) and `domain` (a `String`, held here as its
UTF-8 bytes). -/
structure ReportEvent where
  due : Nat
  policy_hash : Nat
  seq_id : Nat
  domain : List Nat
deriving DecidableEq

/-- Modelled from the spec: `QueueClass::MessageEvent` payload with fields
`due: u64`, `queue_id: u64` and an 8-byte `queue_name` (its size hint is
`U64_LEN * 3`). -/
structure QueueEvent where
  due : Nat
  queue_id : Nat
  queue_name : List Nat
deriving DecidableEq

/-- Modelled from the spec: the token/hash pair of `FtsIndex` and
`BitmapClass::Text`: an 8-byte hash buffer and a `u8` length. -/
structure BitmapHash where
  hash : List Nat
  len : Nat
deriving DecidableEq

/-- Modelled from the spec: `TaskQueueClass` of `write/mod.rs`; `due` fields
are `u64`, hashes are blob hashes, and `SendAlarm` ids are sized so that
`serialized_size` (`U64_LEN + U32_LEN * 3 + 1`) is exact, as it is for the
sibling variants. -/
inductive TaskQueueClass where
  | indexEmail (due : Nat) (hash : List Nat)
  | bayesTrain (due : Nat) (hash : List Nat) (learn_spam : Bool)
  | sendAlarm (due : Nat) (event_id : Nat) (alarm_id : Nat)
  | sendImip (due : Nat) (is_payload : Bool)
deriving DecidableEq

/-- Modelled from the spec: `BlobOp` of `write/mod.rs`. -/
inductive BlobOp where
  | reserve (hash : List Nat) (untilTime : Nat)
  | commit (hash : List Nat)
  | link (hash : List Nat)
  | linkId (hash : List Nat) (id : Nat)
deriving DecidableEq

/-- Modelled from the spec: `DirectoryClass` of `write/mod.rs`; principal ids
are `u32` (size hint `U32_LEN`). -/
inductive DirectoryClass where
  | nameToId (name : List Nat)
  | emailToId (email : List Nat)
  | principal (uid : Nat)
  | usedQuota (uid : Nat)
  | memberOf (principal_id : Nat) (member_of : Nat)
  | members (principal_id : Nat) (has_member : Nat)
  | index (word : List Nat) (principal_id : Nat)
deriving DecidableEq

/-- Modelled from the spec: `InMemoryClass` of `write/mod.rs`. -/
inductive InMemoryClass where
  | key (k : List Nat)
  | counter (k : List Nat)
deriving DecidableEq

/-- Modelled from the spec: `QueueClass` of `write/mod.rs`. -/
inductive QueueClass where
  | message (queue_id : Nat)
  | messageEvent (event : QueueEvent)
  | dmarcReportHeader (event : ReportEvent)
  | tlsReportHeader (event : ReportEvent)
  | dmarcReportEvent (event : ReportEvent)
  | tlsReportEvent (event : ReportEvent)
  | quotaCount (k : List Nat)
  | quotaSize (k : List Nat)
deriving DecidableEq

/-- Modelled from the spec: `ReportClass` of `write/mod.rs` (`id` and
`expires` are `u64`). -/
inductive ReportClass where
  | tls (id : Nat) (expires : Nat)
  | dmarc (id : Nat) (expires : Nat)
  | arf (id : Nat) (expires : Nat)
deriving DecidableEq

/-- Modelled from the spec: `TelemetryClass` of `write/mod.rs`
(`span_id`/`timestamp` are `u64`; `metric_id`/`node_id` are LEB128-encoded). -/
inductive TelemetryClass where
  | span (span_id : Nat)
  | index (span_id : Nat) (value : List Nat)
  | metric (timestamp : Nat) (metric_id : Nat) (node_id : Nat)
deriving DecidableEq

/-- Modelled from the spec: `ValueClass` of `write/mod.rs`; `Any` carries a
caller-chosen subspace byte and raw key. -/
inductive ValueClass where
  | property (field : Nat)
  | acl (grant_account_id : Nat)
  | ftsIndex (hash : BitmapHash)
  | taskQueue (task : TaskQueueClass)
  | blob (op : BlobOp)
  | config (key : List Nat)
  | inMemory (lookup : InMemoryClass)
  | directory (dir : DirectoryClass)
  | queue (q : QueueClass)
  | report (r : ReportClass)
  | telemetry (t : TelemetryClass)
  | documentId
  | changeId
  | any (subspace : Nat) (key : List Nat)
deriving DecidableEq

/-- Modelled from the spec: `TagValue` of `write/mod.rs` (tag ids are
LEB128-encoded, text tags carry raw bytes). -/
inductive TagValue where
  | id (id : Nat)
  | text (t : List Nat)
deriving DecidableEq

/-- Modelled from the spec: `BitmapClass` of `write/mod.rs`. -/
inductive BitmapClass where
  | documentIds
  | tag (field : Nat) (value : TagValue)
  | text (field : Nat) (token : BitmapHash)
deriving DecidableEq

/-- The truncated token hash written by `FtsIndex`:
`hash.hash.get(0..min(hash.len as usize, 8)).unwrap_or_default()`. -/
def hashSlice (h : BitmapHash) : List Nat :=
  match sliceGet h.hash 0 (min h.len 8) with
  | some s => s
  | none => []

/-- `ValueClass::subspace(collection)` of key.rs. -/
def ValueClass.subspace (c : ValueClass) (collection : Nat) : Nat :=
  match c with
  | .property field =>
      if field == 84 && collection == 1 then SUBSPACE_COUNTER else SUBSPACE_PROPERTY
  | .acl _ => SUBSPACE_ACL
  | .ftsIndex _ => SUBSPACE_FTS_INDEX
  | .taskQueue _ => SUBSPACE_TASK_QUEUE
  | .blob op =>
      match op with
      | .reserve _ _ => SUBSPACE_BLOB_RESERVE
      | .commit _ | .link _ | .linkId _ _ => SUBSPACE_BLOB_LINK
  | .config _ => SUBSPACE_SETTINGS
  | .inMemory (.key _) => SUBSPACE_IN_MEMORY_VALUE
  | .inMemory (.counter _) => SUBSPACE_IN_MEMORY_COUNTER
  | .directory (.usedQuota _) => SUBSPACE_QUOTA
  | .directory _ => SUBSPACE_DIRECTORY
  | .queue q =>
      match q with
      | .message _ => SUBSPACE_QUEUE_MESSAGE
      | .messageEvent _ => SUBSPACE_QUEUE_EVENT
      | .dmarcReportHeader _ | .tlsReportHeader _
      | .dmarcReportEvent _ | .tlsReportEvent _ => SUBSPACE_REPORT_OUT
      | .quotaCount _ | .quotaSize _ => SUBSPACE_QUOTA
  | .report _ => SUBSPACE_REPORT_IN
  | .telemetry (.span _) => SUBSPACE_TELEMETRY_SPAN
  | .telemetry (.index _ _) => SUBSPACE_TELEMETRY_INDEX
  | .telemetry (.metric _ _ _) => SUBSPACE_TELEMETRY_METRIC
  | .documentId | .changeId => SUBSPACE_COUNTER
  | .any s _ => s

/-- `ValueClass::serialize(account_id, collection, document_id, flags)` of
key.rs: the optional subspace byte, then the per-variant write chain. -/
def ValueClass.serialize (c : ValueClass) (account_id collection document_id flags : Nat) :
    List Nat :=
  (if hasSubspaceFlag flags then writeU8 (c.subspace collection) else []) ++
  match c with
  | .property field =>
      writeU32 account_id ++ writeU8 collection ++ writeU8 field ++ writeU32 document_id
  | .ftsIndex h =>
      writeU32 account_id ++ hashSlice h ++
      (if 8 ≤ h.len then writeU8 h.len else []) ++
      writeU8 collection ++ writeU32 document_id
  | .acl grant_account_id =>
      writeU32 grant_account_id ++ writeU32 account_id ++ writeU8 collection ++
      writeU32 document_id
  | .taskQueue task =>
      match task with
      | .indexEmail due hash =>
          writeU64 due ++ writeU32 account_id ++ writeU8 0 ++ writeU32 document_id ++ hash
      | .bayesTrain due hash learn_spam =>
          writeU64 due ++ writeU32 account_id ++ writeU8 (if learn_spam then 1 else 2) ++
          writeU32 document_id ++ hash
      | .sendAlarm due event_id alarm_id =>
          writeU64 due ++ writeU32 account_id ++ writeU8 3 ++ writeU32 document_id ++
          writeU16 event_id ++ writeU16 alarm_id
      | .sendImip due is_payload =>
          if !is_payload then
            writeU64 due ++ writeU32 account_id ++ writeU8 4 ++ writeU32 document_id
          else
            writeU64 (2 ^ 64 - 1) ++ writeU32 account_id ++ writeU8 5 ++
            writeU32 document_id ++ writeU64 due
  | .blob op =>
      match op with
      | .reserve hash untilTime =>
          writeU32 account_id ++ hash ++ writeU64 untilTime
      | .commit hash =>
          hash ++ writeU32 (2 ^ 32 - 1) ++ writeU8 0 ++ writeU32 (2 ^ 32 - 1)
      | .link hash =>
          hash ++ writeU32 account_id ++ writeU8 collection ++ writeU32 document_id
      | .linkId hash id =>
          hash ++ writeU32 (id / 2 ^ 32) ++ writeU8 255 ++ writeU32 id
  | .config key => key
  | .inMemory (.key k) => k
  | .inMemory (.counter k) => k
  | .directory dir =>
      match dir with
      | .nameToId name => writeU8 0 ++ name
      | .emailToId email => writeU8 1 ++ email
      | .principal uid => writeU8 2 ++ writeLeb128 uid
      | .usedQuota uid => writeU8 4 ++ writeLeb128 uid
      | .memberOf principal_id member_of =>
          writeU8 5 ++ writeU32 principal_id ++ writeU32 member_of
      | .members principal_id has_member =>
          writeU8 6 ++ writeU32 principal_id ++ writeU32 has_member
      | .index word principal_id => writeU8 7 ++ word ++ writeU32 principal_id
  | .queue q =>
      match q with
      | .message queue_id => writeU64 queue_id
      | .messageEvent event =>
          writeU64 event.due ++ writeU64 event.queue_id ++ event.queue_name
      | .dmarcReportHeader event =>
          writeU8 0 ++ writeU64 event.due ++ event.domain ++
          writeU64 event.policy_hash ++ writeU64 event.seq_id ++ writeU8 0
      | .tlsReportHeader event =>
          writeU8 0 ++ writeU64 event.due ++ event.domain ++
          writeU64 event.policy_hash ++ writeU64 event.seq_id ++ writeU8 1
      | .dmarcReportEvent event =>
          writeU8 1 ++ writeU64 event.due ++ event.domain ++
          writeU64 event.policy_hash ++ writeU64 event.seq_id
      | .tlsReportEvent event =>
          writeU8 2 ++ writeU64 event.due ++ event.domain ++
          writeU64 event.policy_hash ++ writeU64 event.seq_id
      | .quotaCount k => writeU8 0 ++ k
      | .quotaSize k => writeU8 1 ++ k
  | .report r =>
      match r with
      | .tls id expires => writeU8 0 ++ writeU64 expires ++ writeU64 id
      | .dmarc id expires => writeU8 1 ++ writeU64 expires ++ writeU64 id
      | .arf id expires => writeU8 2 ++ writeU64 expires ++ writeU64 id
  | .telemetry t =>
      match t with
      | .span span_id => writeU64 span_id
      | .index span_id value => value ++ writeU64 span_id
      | .metric timestamp metric_id node_id =>
          writeU64 timestamp ++ writeLeb128 metric_id ++ writeLeb128 node_id
  | .documentId => writeU32 account_id ++ writeU8 collection
  | .changeId => writeU32 account_id
  | .any _ key => key

/-- `ValueClass::serialized_size()` of key.rs. -/
def ValueClass.serialized_size (c : ValueClass) : Nat :=
  match c with
  | .property _ => U32_LEN * 2 + 3
  | .ftsIndex h => if 8 ≤ h.len then U32_LEN * 2 + 10 else h.len + U32_LEN * 2 + 1
  | .acl _ => U32_LEN * 3 + 2
  | .inMemory (.counter v) | .inMemory (.key v) | .config v => v.length
  | .directory d =>
      match d with
      | .nameToId v | .emailToId v => v.length
      | .principal _ | .usedQuota _ => U32_LEN
      | .members _ _ | .memberOf _ _ => U32_LEN * 2
      | .index word _ => word.length + U32_LEN
  | .blob op =>
      match op with
      | .reserve _ _ => BLOB_HASH_LEN + U64_LEN + U32_LEN + 1
      | .commit _ | .link _ | .linkId _ _ => BLOB_HASH_LEN + U32_LEN * 2 + 2
  | .taskQueue e =>
      match e with
      | .indexEmail _ _ | .bayesTrain _ _ _ => BLOB_HASH_LEN + U64_LEN * 2 + 1
      | .sendAlarm _ _ _ => U64_LEN + U32_LEN * 3 + 1
      | .sendImip _ is_payload =>
          if is_payload then U64_LEN * 2 + U32_LEN * 2 + 1 else U64_LEN + U32_LEN * 2 + 1
  | .queue q =>
      match q with
      | .message _ => U64_LEN
      | .messageEvent _ => U64_LEN * 3
      | .dmarcReportEvent event | .tlsReportEvent event => event.domain.length + U64_LEN * 3
      | .dmarcReportHeader event | .tlsReportHeader event =>
          event.domain.length + U64_LEN * 3 + 1
      | .quotaCount v | .quotaSize v => v.length
  | .report _ => U64_LEN * 2 + 1
  | .telemetry t =>
      match t with
      | .span _ => U64_LEN + 1
      | .index _ value => U64_LEN + value.length + 1
      | .metric _ _ _ => U64_LEN * 2 + 1
  | .documentId => U32_LEN + 1
  | .changeId => U32_LEN
  | .any _ v => v.length

/-- `ValueClass::is_counter(collection)` of key.rs; the guarded
`Property(84) if collection == 1` arm folds into the boolean. -/
def ValueClass.is_counter (c : ValueClass) (collection : Nat) : Bool :=
  match c with
  | .directory (.usedQuota _) => true
  | .inMemory (.counter _) => true
  | .queue (.quotaCount _) => true
  | .queue (.quotaSize _) => true
  | .documentId => true
  | .changeId => true
  | .property field => field == 84 && collection == 1
  | _ => false

/-- `ValueKey` of the store crate (generic parameter collapsed). -/
structure ValueKey where
  account_id : Nat
  collection : Nat
  document_id : Nat
  class_ : ValueClass
deriving DecidableEq

/-- `ValueKey::property(account_id, collection, document_id, field)`. -/
def ValueKey.property (account_id collection document_id field : Nat) : ValueKey :=
  { account_id := account_id, collection := collection, document_id := document_id,
    class_ := ValueClass.property field }

/-- `Key::subspace` for `ValueKey`. -/
def ValueKey.subspace (k : ValueKey) : Nat := k.class_.subspace k.collection

/-- `Key::serialize` for `ValueKey`. -/
def ValueKey.serialize (k : ValueKey) (flags : Nat) : List Nat :=
  k.class_.serialize k.account_id k.collection k.document_id flags

/-- `ValueKey::is_counter`. -/
def ValueKey.is_counter (k : ValueKey) : Bool := k.class_.is_counter k.collection

/-- `BitmapClass::subspace()` of key.rs. -/
def BitmapClass.subspace (c : BitmapClass) : Nat :=
  match c with
  | .documentIds => SUBSPACE_BITMAP_ID
  | .tag _ _ => SUBSPACE_BITMAP_TAG
  | .text _ _ => SUBSPACE_BITMAP_TEXT

/-- The truncated token hash written by `BitmapClass::Text`:
`token.hash.get(0..min(token.len as usize, 8)).unwrap()` (the unwrap cannot
fail on an 8-byte hash buffer; out of range is modelled as empty). -/
def tokenSlice (token : BitmapHash) : List Nat :=
  match sliceGet token.hash 0 (min token.len 8) with
  | some s => s
  | none => []

/-- `BitmapClass::serialize(account_id, collection, document_id, flags)` of
key.rs: each arm writes its own literal subspace constant when the flag is
set, and `document_id` is appended after the match. -/
def BitmapClass.serialize (c : BitmapClass) (account_id collection document_id flags : Nat) :
    List Nat :=
  (match c with
   | .documentIds =>
       (if hasSubspaceFlag flags then writeU8 SUBSPACE_BITMAP_ID else []) ++
       writeU32 account_id ++ writeU8 collection
   | .tag field (.id id) =>
       (if hasSubspaceFlag flags then writeU8 SUBSPACE_BITMAP_TAG else []) ++
       writeU32 account_id ++ writeU8 collection ++ writeU8 field ++ writeLeb128 id
   | .tag field (.text t) =>
       (if hasSubspaceFlag flags then writeU8 SUBSPACE_BITMAP_TAG else []) ++
       writeU32 account_id ++ writeU8 collection ++ writeU8 (Nat.lor field 128) ++ t
   | .text field token =>
       (if hasSubspaceFlag flags then writeU8 SUBSPACE_BITMAP_TEXT else []) ++
       writeU32 account_id ++ tokenSlice token ++
       (if 8 ≤ token.len then writeU8 token.len else []) ++
       writeU8 collection ++ writeU8 field) ++
  writeU32 document_id

/-- `IndexKeyPrefix` of the store crate. -/
structure IndexKeyPrefix where
  account_id : Nat
  collection : Nat
  field : Nat
deriving DecidableEq

/-- `Key::serialize` for `IndexKeyPrefix`. -/
def IndexKeyPrefix.serialize (k : IndexKeyPrefix) (flags : Nat) : List Nat :=
  (if hasSubspaceFlag flags then writeU8 SUBSPACE_INDEXES else []) ++
  writeU32 k.account_id ++ writeU8 k.collection ++ writeU8 k.field

/-- `Key::subspace` for `IndexKeyPrefix`. -/
def IndexKeyPrefix.subspace (_ : IndexKeyPrefix) : Nat := SUBSPACE_INDEXES

/-- `IndexKey<T>` of the store crate (the key type parameter collapsed to
byte strings). -/
structure IndexKey where
  account_id : Nat
  collection : Nat
  field : Nat
  key : List Nat
  document_id : Nat
deriving DecidableEq

/-- `Key::serialize` for `IndexKey<T>`. -/
def IndexKey.serialize (k : IndexKey) (flags : Nat) : List Nat :=
  (if hasSubspaceFlag flags then writeU8 SUBSPACE_INDEXES else []) ++
  writeU32 k.account_id ++ writeU8 k.collection ++ writeU8 k.field ++ k.key ++
  writeU32 k.document_id

/-- `Key::subspace` for `IndexKey<T>`. -/
def IndexKey.subspace (_ : IndexKey) : Nat := SUBSPACE_INDEXES

/-- `LogKey` of the store crate (`account_id: u32`, `collection: u8`,
`change_id: u64`). -/
structure LogKey where
  account_id : Nat
  collection : Nat
  change_id : Nat
deriving DecidableEq

/-- `Key::serialize` for `LogKey`. -/
def LogKey.serialize (k : LogKey) (flags : Nat) : List Nat :=
  (if hasSubspaceFlag flags then writeU8 SUBSPACE_LOGS else []) ++
  writeU32 k.account_id ++ writeU8 k.collection ++ writeU64 k.change_id

/-- `Key::subspace` for `LogKey`. -/
def LogKey.subspace (_ : LogKey) : Nat := SUBSPACE_LOGS

/-- `AnyKey<T>` of the store crate. -/
structure AnyKey where
  subspace : Nat
  key : List Nat
deriving DecidableEq

/-- `Key::serialize` for `AnyKey<T>`. -/
def AnyKey.serialize (k : AnyKey) (flags : Nat) : List Nat :=
  (if hasSubspaceFlag flags then writeU8 k.subspace else []) ++ k.key

/-- A continuation byte of UTF-8: `0x80..=0xBF`. -/
def isCont (b : Nat) : Bool := 128 ≤ b && b ≤ 191

/-- Fuelled UTF-8 validation step; the fuel is consumed one unit per encoded
scalar, so fuel `l.length` always suffices. -/
def utf8ValidAux : Nat → List Nat → Bool
  | _, [] => true
  | 0, _ :: _ => false
  | fuel + 1, b :: rest =>
    if b ≤ 127 then utf8ValidAux fuel rest
    else if b < 194 then false
    else if b ≤ 223 then
      match rest with
      | c1 :: r => isCont c1 && utf8ValidAux fuel r
      | [] => false
    else if b == 224 then
      match rest with
      | c1 :: c2 :: r => (160 ≤ c1 && c1 ≤ 191) && isCont c2 && utf8ValidAux fuel r
      | _ => false
    else if b == 237 then
      match rest with
      | c1 :: c2 :: r => (128 ≤ c1 && c1 ≤ 159) && isCont c2 && utf8ValidAux fuel r
      | _ => false
    else if b ≤ 239 then
      match rest with
      | c1 :: c2 :: r => isCont c1 && isCont c2 && utf8ValidAux fuel r
      | _ => false
    else if b == 240 then
      match rest with
      | c1 :: c2 :: c3 :: r =>
          (144 ≤ c1 && c1 ≤ 191) && isCont c2 && isCont c3 && utf8ValidAux fuel r
      | _ => false
    else if b ≤ 243 then
      match rest with
      | c1 :: c2 :: c3 :: r => isCont c1 && isCont c2 && isCont c3 && utf8ValidAux fuel r
      | _ => false
    else if b == 244 then
      match rest with
      | c1 :: c2 :: c3 :: r =>
          (128 ≤ c1 && c1 ≤ 143) && isCont c2 && isCont c3 && utf8ValidAux fuel r
      | _ => false
    else false

/-- `std::str::from_utf8(..).is_ok()`: standard UTF-8 validation of a byte
string (shortest-form encodings, no surrogates, max scalar `0x10FFFF`). -/
def utf8Valid (l : List Nat) : Bool := utf8ValidAux l.length l

/-- `impl Deserialize for ReportEvent` of key.rs: `due` at offset 1,
`policy_hash` at `len - 17`, `seq_id` at `len - 9`, domain bytes at
`9 .. len - 17` (UTF-8 checked); every failure is `DataCorruption`. -/
def ReportEvent.deserialize (key : List Nat) : Except StoreError ReportEvent := do
  let due ← deserializeBeU64 key 1
  let policy_hash ← deserializeBeU64 key (wsub key.length (U64_LEN * 2 + 1))
  let seq_id ← deserializeBeU64 key (wsub key.length (U64_LEN + 1))
  let domain ←
    match sliceGet key (U64_LEN + 1) (wsub key.length (U64_LEN * 2 + 1)) with
    | some dom =>
        if utf8Valid dom then Except.ok dom else Except.error StoreError.dataCorruption
    | none => Except.error StoreError.dataCorruption
  Except.ok { due := due, policy_hash := policy_hash, seq_id := seq_id, domain := domain }

/-- Reference predicate following the spec's words for counter
classification: true exactly for `Directory::UsedQuota`, `InMemory::Counter`,
`Queue::QuotaCount`, `Queue::QuotaSize`, `DocumentId`, `ChangeId`, and
`Property(84)` when `collection == 1`. -/
def isCounterSpec (c : ValueClass) (collection : Nat) : Bool :=
  match c with
  | .directory d => match d with | .usedQuota _ => true | _ => false
  | .inMemory l => match l with | .counter _ => true | _ => false
  | .queue q => match q with | .quotaCount _ => true | .quotaSize _ => true | _ => false
  | .documentId => true
  | .changeId => true
  | .property field => decide (field = 84) && decide (collection = 1)
  | _ => false

/-- Strict byte-lexicographic order on byte strings, as Rust's `Ord` for
`Vec<u8>` compares serialized keys (a strict prefix is smaller). -/
def lexLt : List Nat → List Nat → Bool
  | _, [] => false
  | [], _ :: _ => true
  | a :: as, b :: bs => if a < b then true else if a = b then lexLt as bs else false

/-! Helper lemmas about the byte-level primitives. -/

theorem beBytes_length (w n : Nat) : (beBytes w n).length = w := by
  induction w generalizing n with
  | zero => rfl
  | succ w ih => simp [beBytes, ih]

theorem writeU16_length (v : Nat) : (writeU16 v).length = 2 := beBytes_length 2 v

theorem writeU32_length (v : Nat) : (writeU32 v).length = 4 := beBytes_length 4 v

theorem writeU64_length (v : Nat) : (writeU64 v).length = 8 := beBytes_length 8 v

theorem beToNat_append_one (l : List Nat) (x : Nat) :
    beToNat (l ++ [x]) = beToNat l * 256 + x := by
  simp [beToNat, List.foldl_append]

theorem beToNat_beBytes (w n : Nat) : beToNat (beBytes w n) = n % 256 ^ w := by
  induction w generalizing n with
  | zero => simp [beBytes, beToNat, Nat.mod_one]
  | succ w ih =>
    rw [beBytes, beToNat_append_one, ih]
    have h : (256 : Nat) ^ (w + 1) = 256 * 256 ^ w := by ring
    rw [h, Nat.mod_mul]
    ring

theorem beBytes_mod (w n : Nat) : beBytes w (n % 256 ^ w) = beBytes w n := by
  induction w generalizing n with
  | zero => rfl
  | succ w ih =>
    have hpow : (256 : Nat) ^ (w + 1) = 256 * 256 ^ w := by ring
    have hdiv : n % 256 ^ (w + 1) / 256 = n / 256 % 256 ^ w := by
      rw [hpow]; exact Nat.mod_mul_right_div_self n 256 (256 ^ w)
    have hmod : n % 256 ^ (w + 1) % 256 = n % 256 :=
      Nat.mod_mod_of_dvd n (dvd_pow_self 256 (Nat.succ_ne_zero w))
    rw [beBytes, beBytes, hdiv, hmod, ih]

/-! Helper lemmas about byte-lexicographic order. -/

theorem lexLt_irrefl (l : List Nat) : lexLt l l = false := by
  induction l with
  | nil => rfl
  | cons a as ih => simp [lexLt, ih]

theorem lexLt_same_append (p a b : List Nat) : lexLt (p ++ a) (p ++ b) = lexLt a b := by
  induction p with
  | nil => rfl
  | cons x p ih => simp [lexLt, ih]

theorem lexLt_append_of_lt (a b x y : List Nat) (hlen : a.length = b.length)
    (h : lexLt a b = true) : lexLt (a ++ x) (b ++ y) = true := by
  induction a generalizing b with
  | nil =>
    cases b with
    | nil => simp [lexLt] at h
    | cons q bs => simp at hlen
  | cons p as ih =>
    cases b with
    | nil => simp [lexLt] at h
    | cons q bs =>
      simp only [List.length_cons, Nat.succ.injEq] at hlen
      by_cases h1 : p < q
      · simp [lexLt, h1]
      · by_cases h2 : p = q
        · subst h2
          simp only [lexLt, if_neg h1, if_pos rfl] at h
          simpa [lexLt, h1] using ih bs hlen h
        · simp [lexLt, h1, h2] at h

theorem lexLt_asymm (a b : List Nat) (h : lexLt a b = true) : lexLt b a = false := by
  induction a generalizing b with
  | nil =>
    cases b with
    | nil => simp [lexLt] at h
    | cons q bs => rfl
  | cons p as ih =>
    cases b with
    | nil => simp [lexLt] at h
    | cons q bs =>
      by_cases h1 : p < q
      · have hqp : ¬ q < p := Nat.lt_asymm h1
        have hne : ¬ q = p := fun he => absurd h1 (by omega)
        simp [lexLt, hqp, hne]
      · by_cases h2 : p = q
        · subst h2
          simp only [lexLt, if_neg h1, if_pos rfl] at h
          simpa [lexLt, h1] using ih bs h
        · simp [lexLt, h1, h2] at h

theorem lexLt_single (x y : Nat) (h : x < y) : lexLt [x] [y] = true := by
  simp [lexLt, h]

theorem lexLt_step (x1 x2 y1 y2 : List Nat) (hlen : x1.length = x2.length)
    (h : lexLt x1 x2 = true ∨ (x1 = x2 ∧ lexLt y1 y2 = true)) :
    lexLt (x1 ++ y1) (x2 ++ y2) = true := by
  rcases h with h | ⟨he, h⟩
  · exact lexLt_append_of_lt _ _ _ _ hlen h
  · subst he
    rw [lexLt_same_append]
    exact h

theorem beBytes_lt_of_lt (w a b : Nat) (hab : a < b) (hb : b < 256 ^ w) :
    lexLt (beBytes w a) (beBytes w b) = true := by
  induction w generalizing a b with
  | zero => exact absurd hab (by omega)
  | succ w ih =>
    rw [beBytes, beBytes]
    have hble : a / 256 ≤ b / 256 := Nat.div_le_div_right (Nat.le_of_lt hab)
    rcases Nat.lt_or_ge (a / 256) (b / 256) with hlt | hge
    · refine lexLt_append_of_lt _ _ _ _ (by rw [beBytes_length, beBytes_length]) (ih _ _ hlt ?_)
      have hpow : (256 : Nat) ^ (w + 1) = 256 ^ w * 256 := by ring
      exact (Nat.div_lt_iff_lt_mul (by norm_num)).mpr (by omega)
    · have heq : a / 256 = b / 256 := Nat.le_antisymm hble hge
      rw [heq, lexLt_same_append]
      apply lexLt_single
      have ha' := Nat.div_add_mod a 256
      have hb' := Nat.div_add_mod b 256
      omega

theorem lexLt_beBytes_iff (w a b : Nat) :
    lexLt (beBytes w a) (beBytes w b) = true ↔ a % 256 ^ w < b % 256 ^ w := by
  have hpos : 0 < (256 : Nat) ^ w := Nat.pos_pow_of_pos w (by norm_num)
  constructor
  · intro h
    by_contra hn
    push_neg at hn
    rcases Nat.lt_or_ge (b % 256 ^ w) (a % 256 ^ w) with hlt | hge
    · have h2 : lexLt (beBytes w b) (beBytes w a) = true := by
        rw [← beBytes_mod w a, ← beBytes_mod w b]
        exact beBytes_lt_of_lt _ _ _ hlt (Nat.mod_lt a hpos)
      rw [lexLt_asymm _ _ h2] at h
      exact Bool.noConfusion h
    · have heq : a % 256 ^ w = b % 256 ^ w := by omega
      have h2 : beBytes w a = beBytes w b := by
        rw [← beBytes_mod w a, ← beBytes_mod w b, heq]
      rw [h2, lexLt_irrefl] at h
      exact Bool.noConfusion h
  · intro h
    rw [← beBytes_mod w a, ← beBytes_mod w b]
    exact beBytes_lt_of_lt _ _ _ h (Nat.mod_lt b hpos)

/-! Helper lemmas about the serializers' subspace prefix. -/

theorem hasSubspaceFlag_with : hasSubspaceFlag WITH_SUBSPACE = true := by decide

theorem hasSubspaceFlag_zero : hasSubspaceFlag 0 = false := by decide

theorem valueClass_serialize_withSub (c : ValueClass) (a col d : Nat) :
    c.serialize a col d WITH_SUBSPACE = c.subspace col :: c.serialize a col d 0 := by
  unfold ValueClass.serialize
  rw [hasSubspaceFlag_with, hasSubspaceFlag_zero]
  simp [writeU8]

theorem bitmapClass_serialize_withSub (c : BitmapClass) (a col d : Nat) :
    c.serialize a col d WITH_SUBSPACE = c.subspace :: c.serialize a col d 0 := by
  cases c with
  | documentIds =>
    simp [BitmapClass.serialize, BitmapClass.subspace, hasSubspaceFlag_with,
      hasSubspaceFlag_zero, writeU8]
  | tag field value =>
    cases value with
    | id i =>
      simp [BitmapClass.serialize, BitmapClass.subspace, hasSubspaceFlag_with,
        hasSubspaceFlag_zero, writeU8]
    | text t =>
      simp [BitmapClass.serialize, BitmapClass.subspace, hasSubspaceFlag_with,
        hasSubspaceFlag_zero, writeU8]
  | text field token =>
    simp [BitmapClass.serialize, BitmapClass.subspace, hasSubspaceFlag_with,
      hasSubspaceFlag_zero, writeU8]

theorem indexKey_serialize_withSub (k : IndexKey) :
    k.serialize WITH_SUBSPACE = k.subspace :: k.serialize 0 := by
  simp [IndexKey.serialize, IndexKey.subspace, hasSubspaceFlag_with, hasSubspaceFlag_zero,
    writeU8]

theorem indexKeyPrefix_serialize_withSub (k : IndexKeyPrefix) :
    k.serialize WITH_SUBSPACE = k.subspace :: k.serialize 0 := by
  simp [IndexKeyPrefix.serialize, IndexKeyPrefix.subspace, hasSubspaceFlag_with,
    hasSubspaceFlag_zero, writeU8]

theorem logKey_serialize_withSub (k : LogKey) :
    k.serialize WITH_SUBSPACE = k.subspace :: k.serialize 0 := by
  simp [LogKey.serialize, LogKey.subspace, hasSubspaceFlag_with, hasSubspaceFlag_zero,
    writeU8]

theorem anyKey_serialize_withSub (k : AnyKey) :
    k.serialize WITH_SUBSPACE = k.subspace :: k.serialize 0 := by
  simp [AnyKey.serialize, hasSubspaceFlag_with, hasSubspaceFlag_zero, writeU8]

/-- C1: for every key class value (every variant of ValueClass, BitmapClass,
IndexKey, IndexKeyPrefix, LogKey, AnyKey), serializing with the WITH_SUBSPACE
flag yields exactly the single subspace byte followed by the serialization of
the same key with flags 0. -/
theorem C1_with_subspace_is_subspace_byte_then_plain :
    (∀ (c : ValueClass) (a col d : Nat),
        c.serialize a col d WITH_SUBSPACE = c.subspace col :: c.serialize a col d 0)
    ∧ (∀ (b : BitmapClass) (a col d : Nat),
        b.serialize a col d WITH_SUBSPACE = b.subspace :: b.serialize a col d 0)
    ∧ (∀ k : IndexKey, k.serialize WITH_SUBSPACE = k.subspace :: k.serialize 0)
    ∧ (∀ k : IndexKeyPrefix, k.serialize WITH_SUBSPACE = k.subspace :: k.serialize 0)
    ∧ (∀ k : LogKey, k.serialize WITH_SUBSPACE = k.subspace :: k.serialize 0)
    ∧ (∀ k : AnyKey, k.serialize WITH_SUBSPACE = k.subspace :: k.serialize 0) :=
  ⟨valueClass_serialize_withSub, bitmapClass_serialize_withSub, indexKey_serialize_withSub,
    indexKeyPrefix_serialize_withSub, logKey_serialize_withSub, anyKey_serialize_withSub⟩

/-- C6: counter classification equals the spec's reference definition, and the
Property subspace routing picks the counter subspace exactly for field 84 in
collection 1 (the two subspaces being distinct tags). -/
theorem C6_counter_classification_and_property_routing :
    (∀ (c : ValueClass) (collection : Nat),
        c.is_counter collection = isCounterSpec c collection)
    ∧ (∀ account_id collection document_id field : Nat,
        (ValueKey.property account_id collection document_id field).subspace =
          if field = 84 ∧ collection = 1 then SUBSPACE_COUNTER else SUBSPACE_PROPERTY)
    ∧ SUBSPACE_COUNTER ≠ SUBSPACE_PROPERTY := by
  refine ⟨?_, ?_, by decide⟩
  · intro c collection
    cases c with
    | property field =>
      by_cases h1 : field = 84 <;> by_cases h2 : collection = 1 <;>
        simp [ValueClass.is_counter, isCounterSpec, h1, h2]
    | directory d => cases d <;> rfl
    | inMemory l => cases l <;> rfl
    | queue q => cases q <;> rfl
    | acl g => rfl
    | ftsIndex h => rfl
    | taskQueue t => rfl
    | blob op => rfl
    | config k => rfl
    | report r => rfl
    | telemetry t => rfl
    | documentId => rfl
    | changeId => rfl
    | any s k => rfl
  · intro a col d field
    simp only [ValueKey.property, ValueKey.subspace, ValueClass.subspace]
    by_cases h1 : field = 84 <;> by_cases h2 : col = 1 <;> simp [h1, h2]

/-- C8: the serialization of an IndexKeyPrefix is a strict byte prefix of the
serialization of every IndexKey sharing its account, collection and field,
for every flags value (in particular 0 and WITH_SUBSPACE). -/
theorem C8_index_prefix_containment (a col f : Nat) (key : List Nat) (doc flags : Nat) :
    (IndexKeyPrefix.mk a col f).serialize flags <+: (IndexKey.mk a col f key doc).serialize flags
    ∧ (IndexKeyPrefix.mk a col f).serialize flags ≠ (IndexKey.mk a col f key doc).serialize flags := by
  have heq : (IndexKey.mk a col f key doc).serialize flags =
      (IndexKeyPrefix.mk a col f).serialize flags ++ (key ++ writeU32 doc) := by
    simp [IndexKey.serialize, IndexKeyPrefix.serialize, List.append_assoc]
  constructor
  · exact ⟨key ++ writeU32 doc, heq.symm⟩
  · intro h
    have hl := congrArg List.length h
    rw [heq] at hl
    simp [List.length_append, writeU32_length] at hl

/-- C5 counterexample: a Property key serializes (flags 0) to 10 bytes while
its serialized_size hint is 11, so `serialized_size() <= serialize(0).len()`
fails. -/
theorem C5_counterexample :
    ¬ ((ValueClass.property 5).serialized_size ≤
        ((ValueClass.property 5).serialize 7 2 42 0).length) := by decide

/-- C5 amended: the WITH_SUBSPACE serialization is always exactly one byte
longer than the flags-0 serialization; the serialized_size hint is only an
allocation estimate, and for Property keys the flags-0 length is exactly
serialized_size minus one. -/
theorem C5_length_behavior :
    (∀ (c : ValueClass) (a col d : Nat),
        (c.serialize a col d WITH_SUBSPACE).length = (c.serialize a col d 0).length + 1)
    ∧ (∀ field a col d : Nat,
        ((ValueClass.property field).serialize a col d 0).length + 1 =
          (ValueClass.property field).serialized_size) := by
  constructor
  · intro c a col d
    rw [valueClass_serialize_withSub]
    simp
  · intro field a col d
    simp [ValueClass.serialize, ValueClass.serialized_size, hasSubspaceFlag_zero, writeU8,
      writeU32, beBytes_length, U32_LEN, List.length_append]

/-- C3 counterexample: a DmarcReportHeader key with due 1 does not begin with
the big-endian encoding of its due field (it begins with the variant byte 0),
so not every task-queue, queue-event and queue-report key leads with due. -/
theorem C3_counterexample :
    List.take 8 ((ValueClass.queue (QueueClass.dmarcReportHeader
        { due := 1, policy_hash := 0, seq_id := 0, domain := [] })).serialize 0 0 0 0)
      ≠ writeU64 1 := by decide

/-- C3 amended: task-queue keys other than the SendImip payload variant and
queue-event (MessageEvent) keys serialized with flags 0 begin with the
big-endian 8-byte encoding of due; the SendImip payload key begins with the
encoding of u64::MAX; queue-report keys carry the encoding of due at bytes
1..9 after their variant byte; and big-endian 8-byte order agrees with
numeric order, so a range scan bounded by a due value is correct over keys
that lead with due. -/
theorem C3_due_time_first_ordering :
    (∀ (due : Nat) (hash : List Nat) (a col d : Nat),
        (((ValueClass.taskQueue (TaskQueueClass.indexEmail due hash)).serialize a col d 0).take 8)
          = writeU64 due)
    ∧ (∀ (due : Nat) (hash : List Nat) (learn : Bool) (a col d : Nat),
        (((ValueClass.taskQueue (TaskQueueClass.bayesTrain due hash learn)).serialize a col d 0).take 8)
          = writeU64 due)
    ∧ (∀ due ev al a col d : Nat,
        (((ValueClass.taskQueue (TaskQueueClass.sendAlarm due ev al)).serialize a col d 0).take 8)
          = writeU64 due)
    ∧ (∀ due a col d : Nat,
        (((ValueClass.taskQueue (TaskQueueClass.sendImip due false)).serialize a col d 0).take 8)
          = writeU64 due)
    ∧ (∀ due a col d : Nat,
        (((ValueClass.taskQueue (TaskQueueClass.sendImip due true)).serialize a col d 0).take 8)
          = writeU64 (2 ^ 64 - 1))
    ∧ (∀ (ev : QueueEvent) (a col d : Nat),
        (((ValueClass.queue (QueueClass.messageEvent ev)).serialize a col d 0).take 8)
          = writeU64 ev.due)
    ∧ (∀ (ev : ReportEvent) (a col d : Nat),
        ((((ValueClass.queue (QueueClass.dmarcReportHeader ev)).serialize a col d 0).drop 1).take 8)
          = writeU64 ev.due)
    ∧ (∀ (ev : ReportEvent) (a col d : Nat),
        ((((ValueClass.queue (QueueClass.tlsReportHeader ev)).serialize a col d 0).drop 1).take 8)
          = writeU64 ev.due)
    ∧ (∀ (ev : ReportEvent) (a col d : Nat),
        ((((ValueClass.queue (QueueClass.dmarcReportEvent ev)).serialize a col d 0).drop 1).take 8)
          = writeU64 ev.due)
    ∧ (∀ (ev : ReportEvent) (a col d : Nat),
        ((((ValueClass.queue (QueueClass.tlsReportEvent ev)).serialize a col d 0).drop 1).take 8)
          = writeU64 ev.due)
    ∧ (∀ d1 d2 : Nat,
        (lexLt (writeU64 d1) (writeU64 d2) = true ↔ d1 % 2 ^ 64 < d2 % 2 ^ 64)) := by
  refine ⟨?_, ?_, ?_, ?_, ?_, ?_, ?_, ?_, ?_, ?_, ?_⟩
  · intro due hash a col d
    simp [ValueClass.serialize, hasSubspaceFlag_zero, List.append_assoc]
    exact List.take_left' (writeU64_length due)
  · intro due hash learn a col d
    simp [ValueClass.serialize, hasSubspaceFlag_zero, List.append_assoc]
    exact List.take_left' (writeU64_length due)
  · intro due ev al a col d
    simp [ValueClass.serialize, hasSubspaceFlag_zero, List.append_assoc]
    exact List.take_left' (writeU64_length due)
  · intro due a col d
    simp [ValueClass.serialize, hasSubspaceFlag_zero, List.append_assoc]
    exact List.take_left' (writeU64_length due)
  · intro due a col d
    simp [ValueClass.serialize, hasSubspaceFlag_zero, List.append_assoc]
    exact List.take_left' (writeU64_length _)
  · intro ev a col d
    simp [ValueClass.serialize, hasSubspaceFlag_zero, List.append_assoc]
    exact List.take_left' (writeU64_length _)
  · intro ev a col d
    simp [ValueClass.serialize, hasSubspaceFlag_zero, writeU8, List.append_assoc]
    exact List.take_left' (writeU64_length _)
  · intro ev a col d
    simp [ValueClass.serialize, hasSubspaceFlag_zero, writeU8, List.append_assoc]
    exact List.take_left' (writeU64_length _)
  · intro ev a col d
    simp [ValueClass.serialize, hasSubspaceFlag_zero, writeU8, List.append_assoc]
    exact List.take_left' (writeU64_length _)
  · intro ev a col d
    simp [ValueClass.serialize, hasSubspaceFlag_zero, writeU8, List.append_assoc]
    exact List.take_left' (writeU64_length _)
  · intro d1 d2
    have h := lexLt_beBytes_iff 8 d1 d2
    norm_num at h
    convert h using 2

/-- C7: the SendImip payload key (flags 0) starts with eight 0xFF bytes, the
non-payload key starts with the big-endian due, and any key beginning with
the big-endian encoding of a bound below u64::MAX is strictly below every
payload key, so payload rows never appear in a scheduler scan. -/
theorem C7_payload_hiding :
    (∀ due a col d : Nat,
        (((ValueClass.taskQueue (TaskQueueClass.sendImip due true)).serialize a col d 0).take 8)
          = List.replicate 8 255)
    ∧ (∀ due a col d : Nat,
        (((ValueClass.taskQueue (TaskQueueClass.sendImip due false)).serialize a col d 0).take 8)
          = writeU64 due)
    ∧ (∀ (now : Nat) (x : List Nat) (due a col d : Nat), now < 2 ^ 64 - 1 →
        lexLt (writeU64 now ++ x)
          ((ValueClass.taskQueue (TaskQueueClass.sendImip due true)).serialize a col d 0) = true) := by
  refine ⟨?_, ?_, ?_⟩
  · intro due a col d
    simp [ValueClass.serialize, hasSubspaceFlag_zero, List.append_assoc]
    rw [List.take_left' (writeU64_length _)]
    decide
  · intro due a col d
    simp [ValueClass.serialize, hasSubspaceFlag_zero, List.append_assoc]
    exact List.take_left' (writeU64_length due)
  · intro now x due a col d hnow
    simp only [ValueClass.serialize, hasSubspaceFlag_zero, Bool.false_eq_true, if_false,
      List.nil_append, List.append_assoc]
    apply lexLt_append_of_lt _ _ _ _ (by rw [writeU64_length, writeU64_length])
    have h := (lexLt_beBytes_iff 8 now (2 ^ 64 - 1)).mpr
    have h256 : (256 : Nat) ^ 8 = 2 ^ 64 := by norm_num
    apply h
    rw [h256, Nat.mod_eq_of_lt (by omega), Nat.mod_eq_of_lt (by omega)]
    exact hnow

/-- C4 counterexample: for DirectoryClass::Principal the LEB128-encoded uid
breaks monotonicity: 200 < 300, yet the key for uid 200 is not
byte-lexicographically below the key for uid 300 (their LEB128 forms are
[200, 1] and [172, 2]). -/
theorem C4_counterexample :
    (200 : Nat) < 300 ∧
    lexLt ((ValueClass.directory (DirectoryClass.principal 200)).serialize 0 0 0 0)
        ((ValueClass.directory (DirectoryClass.principal 300)).serialize 0 0 0 0) = false := by
  decide

/-- C4 amended: monotone encoding holds for key classes all of whose
key-forming fields are fixed-width big-endian integers, shown here for LogKey
(account_id, collection, change_id) and for the Property value class
(account_id, collection, field, document_id); LEB128-encoded classes such as
DirectoryClass::Principal violate it. -/
theorem C4_fixed_width_monotone :
    (∀ k1 k2 : LogKey,
        k1.account_id < 2 ^ 32 → k2.account_id < 2 ^ 32 →
        k1.change_id < 2 ^ 64 → k2.change_id < 2 ^ 64 →
        (k1.account_id < k2.account_id ∨
          (k1.account_id = k2.account_id ∧ (k1.collection < k2.collection ∨
            (k1.collection = k2.collection ∧ k1.change_id < k2.change_id)))) →
        lexLt (k1.serialize 0) (k2.serialize 0) = true)
    ∧ (∀ a1 c1 f1 d1 a2 c2 f2 d2 : Nat,
        a1 < 2 ^ 32 → a2 < 2 ^ 32 → d1 < 2 ^ 32 → d2 < 2 ^ 32 →
        (a1 < a2 ∨ (a1 = a2 ∧ (c1 < c2 ∨ (c1 = c2 ∧ (f1 < f2 ∨ (f1 = f2 ∧ d1 < d2)))))) →
        lexLt ((ValueClass.property f1).serialize a1 c1 d1 0)
          ((ValueClass.property f2).serialize a2 c2 d2 0) = true) := by
  have h32 : (256 : Nat) ^ 4 = 2 ^ 32 := by norm_num
  have h64 : (256 : Nat) ^ 8 = 2 ^ 64 := by norm_num
  constructor
  · intro k1 k2 ha1 ha2 hch1 hch2 hlt
    simp only [LogKey.serialize, hasSubspaceFlag_zero, Bool.false_eq_true, if_false,
      List.nil_append, List.append_assoc]
    apply lexLt_step _ _ _ _ (by rw [writeU32_length, writeU32_length])
    rcases hlt with h | ⟨heq, hlt⟩
    · left
      apply (lexLt_beBytes_iff 4 _ _).mpr
      rw [h32, Nat.mod_eq_of_lt ha1, Nat.mod_eq_of_lt ha2]
      exact h
    · right
      refine ⟨by rw [heq], ?_⟩
      apply lexLt_step (writeU8 k1.collection) (writeU8 k2.collection) _ _ (by rfl)
      rcases hlt with h | ⟨heq2, hlt⟩
      · left
        exact lexLt_single _ _ h
      · right
        refine ⟨by rw [heq2], ?_⟩
        apply (lexLt_beBytes_iff 8 _ _).mpr
        rw [h64, Nat.mod_eq_of_lt hch1, Nat.mod_eq_of_lt hch2]
        exact hlt
  · intro a1 c1 f1 d1 a2 c2 f2 d2 ha1 ha2 hd1 hd2 hlt
    simp only [ValueClass.serialize, hasSubspaceFlag_zero, Bool.false_eq_true, if_false,
      List.nil_append, List.append_assoc]
    apply lexLt_step _ _ _ _ (by rw [writeU32_length, writeU32_length])
    rcases hlt with h | ⟨heq, hlt⟩
    · left
      apply (lexLt_beBytes_iff 4 _ _).mpr
      rw [h32, Nat.mod_eq_of_lt ha1, Nat.mod_eq_of_lt ha2]
      exact h
    · right
      refine ⟨by rw [heq], ?_⟩
      apply lexLt_step (writeU8 c1) (writeU8 c2) _ _ (by rfl)
      rcases hlt with h | ⟨heq2, hlt⟩
      · left
        exact lexLt_single _ _ h
      · right
        refine ⟨by rw [heq2], ?_⟩
        apply lexLt_step (writeU8 f1) (writeU8 f2) _ _ (by rfl)
        rcases hlt with h | ⟨heq3, hlt⟩
        · left
          exact lexLt_single _ _ h
        · right
          refine ⟨by rw [heq3], ?_⟩
          apply (lexLt_beBytes_iff 4 _ _).mpr
          rw [h32, Nat.mod_eq_of_lt hd1, Nat.mod_eq_of_lt hd2]
          exact hlt

/-! Helper lemmas for the report-event decoder. -/

theorem sliceGet_middle (pre mid suf : List Nat) :
    sliceGet (pre ++ mid ++ suf) pre.length (pre.length + mid.length) = some mid := by
  unfold sliceGet
  rw [if_pos ⟨Nat.le_add_right _ _, by simp [List.length_append]⟩]
  rw [Nat.add_sub_cancel_left, List.append_assoc, List.drop_left, List.take_left]

theorem sliceGet_shape (l pre mid suf : List Nat) (a b : Nat)
    (hl : l = pre ++ mid ++ suf) (ha : a = pre.length) (hb : b = pre.length + mid.length) :
    sliceGet l a b = some mid := by
  subst hl
  subst ha
  subst hb
  exact sliceGet_middle pre mid suf

theorem deserialize_frame (v t due p s : Nat) (dom : List Nat)
    (hdue : due < 2 ^ 64) (hp : p < 2 ^ 64) (hs : s < 2 ^ 64)
    (hd : dom.length + 26 < 2 ^ 64) (hu : utf8Valid dom = true) :
    ReportEvent.deserialize ([v] ++ writeU64 due ++ dom ++ writeU64 p ++ writeU64 s ++ [t]) =
      Except.ok { due := due, policy_hash := p, seq_id := s, domain := dom } := by
  have hlen : ([v] ++ writeU64 due ++ dom ++ writeU64 p ++ writeU64 s ++ [t]).length
      = 26 + dom.length := by
    simp [List.length_append, writeU64_length]
    omega
  have h17 : wsub ([v] ++ writeU64 due ++ dom ++ writeU64 p ++ writeU64 s ++ [t]).length
      (U64_LEN * 2 + 1) = 9 + dom.length := by
    rw [hlen]
    simp [wsub, U64_LEN]
    omega
  have h9 : wsub ([v] ++ writeU64 due ++ dom ++ writeU64 p ++ writeU64 s ++ [t]).length
      (U64_LEN + 1) = 17 + dom.length := by
    rw [hlen]
    simp [wsub, U64_LEN]
    omega
  have r1 : sliceGet ([v] ++ writeU64 due ++ dom ++ writeU64 p ++ writeU64 s ++ [t]) 1
      (1 + U64_LEN) = some (writeU64 due) :=
    sliceGet_shape _ [v] (writeU64 due) (dom ++ writeU64 p ++ writeU64 s ++ [t]) _ _
      (by simp [List.append_assoc]) (by simp) (by simp [writeU64_length, U64_LEN])
  have r2 : sliceGet ([v] ++ writeU64 due ++ dom ++ writeU64 p ++ writeU64 s ++ [t])
      (9 + dom.length) (9 + dom.length + U64_LEN) = some (writeU64 p) :=
    sliceGet_shape _ ([v] ++ writeU64 due ++ dom) (writeU64 p) (writeU64 s ++ [t]) _ _
      (by simp [List.append_assoc])
      (by simp only [List.length_append, List.length_singleton, writeU64_length]; try omega)
      (by simp only [List.length_append, List.length_singleton, writeU64_length, U64_LEN]; try omega)
  have r3 : sliceGet ([v] ++ writeU64 due ++ dom ++ writeU64 p ++ writeU64 s ++ [t])
      (17 + dom.length) (17 + dom.length + U64_LEN) = some (writeU64 s) :=
    sliceGet_shape _ ([v] ++ writeU64 due ++ dom ++ writeU64 p) (writeU64 s) [t] _ _
      (by simp [List.append_assoc])
      (by simp only [List.length_append, List.length_singleton, writeU64_length]; try omega)
      (by simp only [List.length_append, List.length_singleton, writeU64_length, U64_LEN]; try omega)
  have r4 : sliceGet ([v] ++ writeU64 due ++ dom ++ writeU64 p ++ writeU64 s ++ [t])
      (U64_LEN + 1) (9 + dom.length) = some dom :=
    sliceGet_shape _ ([v] ++ writeU64 due) dom (writeU64 p ++ writeU64 s ++ [t]) _ _
      (by simp [List.append_assoc]) (by simp [writeU64_length, U64_LEN])
      (by simp only [List.length_append, List.length_singleton, writeU64_length, U64_LEN]; try omega)
  have d1 : deserializeBeU64 ([v] ++ writeU64 due ++ dom ++ writeU64 p ++ writeU64 s ++ [t]) 1
      = Except.ok due := by
    unfold deserializeBeU64
    rw [r1]
    simp [writeU64, U64_LEN, beToNat_beBytes]
    omega
  have d2 : deserializeBeU64 ([v] ++ writeU64 due ++ dom ++ writeU64 p ++ writeU64 s ++ [t])
      (9 + dom.length) = Except.ok p := by
    unfold deserializeBeU64
    rw [r2]
    simp [writeU64, U64_LEN, beToNat_beBytes]
    omega
  have d3 : deserializeBeU64 ([v] ++ writeU64 due ++ dom ++ writeU64 p ++ writeU64 s ++ [t])
      (17 + dom.length) = Except.ok s := by
    unfold deserializeBeU64
    rw [r3]
    simp [writeU64, U64_LEN, beToNat_beBytes]
    omega
  unfold ReportEvent.deserialize
  rw [h17, h9, d1, d2, d3, r4]
  simp [hu]
  try rfl

theorem deserializeBeU64_err (key : List Nat) (i : Nat) (h : ¬ i + U64_LEN ≤ key.length) :
    deserializeBeU64 key i = Except.error StoreError.dataCorruption := by
  unfold deserializeBeU64 sliceGet
  rw [if_neg fun hc => h hc.2]

theorem deserializeBeU64_ok (key : List Nat) (i : Nat) (h : i + U64_LEN ≤ key.length) :
    deserializeBeU64 key i = Except.ok (beToNat ((key.drop i).take (i + U64_LEN - i))) := by
  unfold deserializeBeU64 sliceGet
  rw [if_pos ⟨Nat.le_add_right _ _, h⟩]

theorem sliceGet_none (l : List Nat) (a b : Nat) (h : ¬ (a ≤ b ∧ b ≤ l.length)) :
    sliceGet l a b = none := by
  unfold sliceGet
  rw [if_neg h]

/-- C10: deserializing the full flags-0 bytes of a DmarcReportHeader or
TlsReportHeader key recovers the original ReportEvent: the decoder offsets
(due at byte 1, policy_hash at len-17, seq_id at len-9, domain at bytes
9..len-17) align with the header layout and its trailing report-type byte. -/
theorem C10_header_roundtrip (e : ReportEvent) (a col d : Nat)
    (h1 : e.due < 2 ^ 64) (h2 : e.policy_hash < 2 ^ 64) (h3 : e.seq_id < 2 ^ 64)
    (h4 : e.domain.length + 26 < 2 ^ 64) (h5 : utf8Valid e.domain = true) :
    ReportEvent.deserialize
        ((ValueClass.queue (QueueClass.dmarcReportHeader e)).serialize a col d 0) = Except.ok e
    ∧ ReportEvent.deserialize
        ((ValueClass.queue (QueueClass.tlsReportHeader e)).serialize a col d 0) = Except.ok e := by
  constructor
  · have hser : (ValueClass.queue (QueueClass.dmarcReportHeader e)).serialize a col d 0
        = [0] ++ writeU64 e.due ++ e.domain ++ writeU64 e.policy_hash ++
          writeU64 e.seq_id ++ [0] := by
      simp [ValueClass.serialize, hasSubspaceFlag_zero, writeU8, List.append_assoc]
    rw [hser]
    exact deserialize_frame 0 0 e.due e.policy_hash e.seq_id e.domain h1 h2 h3 h4 h5
  · have hser : (ValueClass.queue (QueueClass.tlsReportHeader e)).serialize a col d 0
        = [0] ++ writeU64 e.due ++ e.domain ++ writeU64 e.policy_hash ++
          writeU64 e.seq_id ++ [1] := by
      simp [ValueClass.serialize, hasSubspaceFlag_zero, writeU8, List.append_assoc]
    rw [hser]
    exact deserialize_frame 0 1 e.due e.policy_hash e.seq_id e.domain h1 h2 h3 h4 h5

/-- C10 witness: the roundtrip at a concrete header key. -/
theorem C10_header_roundtrip_witness :
    ReportEvent.deserialize
        ((ValueClass.queue (QueueClass.dmarcReportHeader
          { due := 7, policy_hash := 9, seq_id := 11, domain := [97, 98] })).serialize 0 0 0 0)
      = Except.ok { due := 7, policy_hash := 9, seq_id := 11, domain := [97, 98] } :=
  (C10_header_roundtrip { due := 7, policy_hash := 9, seq_id := 11, domain := [97, 98] } 0 0 0
    (by decide) (by decide) (by decide) (by decide) (by decide)).1

/-- C2 counterexample: for the ReportEvent with due 100, policy_hash 170,
seq_id 187 and domain "example.com", deserializing the DmarcReportEvent key
with its first (variant) byte dropped does not return the original event:
the decoder reads due at offset 1 and expects a trailing byte, so every
field comes out shifted. -/
theorem C2_counterexample :
    ReportEvent.deserialize
        (List.drop 1 ((ValueClass.queue (QueueClass.dmarcReportEvent
          (⟨100, 170, 187, [101, 120, 97, 109, 112, 108, 101, 46, 99, 111, 109]⟩ :
            ReportEvent))).serialize 0 0 0 0))
      ≠ Except.ok
          (⟨100, 170, 187, [101, 120, 97, 109, 112, 108, 101, 46, 99, 111, 109]⟩ :
            ReportEvent) := by
  decide

/-- C2 amended: the decoder's offsets fit a report-event key whose variant
byte is retained and that carries one extra trailing byte: for every
ReportEvent and any trailing byte b, deserializing
DmarcReportEvent(e).serialize(0) with b appended returns e. -/
theorem C2_event_roundtrip_shifted (e : ReportEvent) (b a col d : Nat)
    (h1 : e.due < 2 ^ 64) (h2 : e.policy_hash < 2 ^ 64) (h3 : e.seq_id < 2 ^ 64)
    (h4 : e.domain.length + 26 < 2 ^ 64) (h5 : utf8Valid e.domain = true) :
    ReportEvent.deserialize
        ((ValueClass.queue (QueueClass.dmarcReportEvent e)).serialize a col d 0 ++ [b])
      = Except.ok e := by
  have hser : (ValueClass.queue (QueueClass.dmarcReportEvent e)).serialize a col d 0 ++ [b]
      = [1] ++ writeU64 e.due ++ e.domain ++ writeU64 e.policy_hash ++
        writeU64 e.seq_id ++ [b] := by
    simp [ValueClass.serialize, hasSubspaceFlag_zero, writeU8, List.append_assoc]
  rw [hser]
  exact deserialize_frame 1 b e.due e.policy_hash e.seq_id e.domain h1 h2 h3 h4 h5

/-- C2 witness: the shifted roundtrip at a concrete event key. -/
theorem C2_event_roundtrip_shifted_witness :
    ReportEvent.deserialize
        ((ValueClass.queue (QueueClass.dmarcReportEvent
          { due := 3, policy_hash := 4, seq_id := 5, domain := [97] })).serialize 0 0 0 0 ++ [9])
      = Except.ok { due := 3, policy_hash := 4, seq_id := 5, domain := [97] } :=
  C2_event_roundtrip_shifted { due := 3, policy_hash := 4, seq_id := 5, domain := [97] } 9 0 0 0
    (by decide) (by decide) (by decide) (by decide) (by decide)

/-- C9: the report-event decoder is total with DataCorruption as its only
failure mode (including short inputs, where the wrapped offset arithmetic
leads to an out-of-range read), and every input shorter than 25 bytes is
rejected as DataCorruption. -/
theorem C9_decoder_total :
    (∀ key : List Nat, (∃ e, ReportEvent.deserialize key = Except.ok e) ∨
        ReportEvent.deserialize key = Except.error StoreError.dataCorruption)
    ∧ (∀ key : List Nat, key.length < 25 →
        ReportEvent.deserialize key = Except.error StoreError.dataCorruption) := by
  constructor
  · intro key
    cases h : ReportEvent.deserialize key with
    | ok e => exact Or.inl ⟨e, rfl⟩
    | error err => cases err; exact Or.inr rfl
  · intro key hk
    rcases Nat.lt_or_ge key.length 9 with h9 | h9
    · have e1 := deserializeBeU64_err key 1 (by simp only [U64_LEN]; omega)
      unfold ReportEvent.deserialize
      rw [e1]
      rfl
    · rcases Nat.lt_or_ge key.length 17 with h17 | h17
      · have e1 := deserializeBeU64_ok key 1 (by simp only [U64_LEN]; omega)
        have hw : wsub key.length (U64_LEN * 2 + 1) = key.length + (2 ^ 64 - 17) := by
          simp only [wsub, U64_LEN]
          omega
        have e2 := deserializeBeU64_err key (wsub key.length (U64_LEN * 2 + 1))
          (by rw [hw]; simp only [U64_LEN]; omega)
        unfold ReportEvent.deserialize
        rw [e1, e2]
        rfl
      · have e1 := deserializeBeU64_ok key 1 (by simp only [U64_LEN]; omega)
        have hw : wsub key.length (U64_LEN * 2 + 1) = key.length - 17 := by
          simp only [wsub, U64_LEN]
          omega
        have hw9 : wsub key.length (U64_LEN + 1) = key.length - 9 := by
          simp only [wsub, U64_LEN]
          omega
        have e2 := deserializeBeU64_ok key (wsub key.length (U64_LEN * 2 + 1))
          (by rw [hw]; simp only [U64_LEN]; omega)
        have e3 := deserializeBeU64_ok key (wsub key.length (U64_LEN + 1))
          (by rw [hw9]; simp only [U64_LEN]; omega)
        have e4 : sliceGet key (U64_LEN + 1) (wsub key.length (U64_LEN * 2 + 1)) = none := by
          rw [hw]
          apply sliceGet_none
          simp only [U64_LEN]
          omega
        unfold ReportEvent.deserialize
        rw [e1, e2, e3, e4]
        rfl

/-- C9 witness: the empty input is rejected as DataCorruption. -/
theorem C9_decoder_total_witness :
    ReportEvent.deserialize [] = Except.error StoreError.dataCorruption :=
  C9_decoder_total.2 [] (by decide)

/-- C3 witness: the due-prefix fact at a concrete IndexEmail task key. -/
theorem C3_due_time_first_ordering_witness :
    (((ValueClass.taskQueue (TaskQueueClass.indexEmail 5 [1, 2])).serialize 0 0 0 0).take 8)
      = writeU64 5 :=
  C3_due_time_first_ordering.1 5 [1, 2] 0 0 0

/-- C4 witness: monotonicity at two concrete LogKeys differing in change_id. -/
theorem C4_fixed_width_monotone_witness :
    lexLt ((LogKey.mk 1 2 3).serialize 0) ((LogKey.mk 1 2 4).serialize 0) = true :=
  C4_fixed_width_monotone.1 (LogKey.mk 1 2 3) (LogKey.mk 1 2 4) (by decide) (by decide)
    (by decide) (by decide) (Or.inr ⟨rfl, Or.inr ⟨rfl, by decide⟩⟩)

/-- C7 witness: a concrete scan bound below u64::MAX sorts strictly below a
concrete payload key. -/
theorem C7_payload_hiding_witness :
    lexLt (writeU64 5 ++ [0])
        ((ValueClass.taskQueue (TaskQueueClass.sendImip 3 true)).serialize 0 0 0 0) = true :=
  C7_payload_hiding.2.2 5 [0] 3 0 0 0 (by decide)
